import Mathlib

/-!
Verification development for the instantdownloader repository.

The repository's core (platform classification, identifier extraction,
resolution strategy chains, and the YouTube format catalog builder) is
embedded shallowly: pure helpers of the TypeScript sources become Lean
functions, and each network call (fetch / HEAD request / page scrape) is
represented by an explicit environment value describing the upstream's
response, mirroring the code's own `try`/`catch` boundaries with
`Except`.  JavaScript numbers in the relevant code paths are integers
well below 2^53, so they are modelled as `Nat`/`Int`.
-/

namespace InstantDl

/-! ## Generic list machinery -/

/-- Embedding of JavaScript `String.prototype.includes` on character
lists: `containsSub pat s` is true iff `pat` occurs as a contiguous
substring of `s`. -/
def containsSub (pat : List Char) : List Char → Bool
  | [] => pat.isEmpty
  | c :: rest => pat.isPrefixOf (c :: rest) || containsSub pat rest

/-- String-level wrapper for `containsSub`. -/
def strContains (s pat : String) : Bool :=
  containsSub pat.data s.data

/-- Stable insertion of `x` into a list that is sorted descending by
`key`; `x` is placed before the first element whose key does not exceed
`key x`, matching the placement a stable sort gives. -/
def insertByDesc (key : α → Int) (x : α) : List α → List α
  | [] => [x]
  | y :: ys => if key y ≤ key x then x :: y :: ys else y :: insertByDesc key x ys

/-- Stable descending sort by an integer key.  This is the unique result
of JavaScript's (stable) `Array.prototype.sort` under the numeric
comparator `(a, b) => key(b) - key(a)`. -/
def sortByDesc (key : α → Int) : List α → List α
  | [] => []
  | x :: xs => insertByDesc key x (sortByDesc key xs)

theorem insertByDesc_perm (key : α → Int) (x : α) (l : List α) :
    List.Perm (insertByDesc key x l) (x :: l) := by
  induction l with
  | nil => simp [insertByDesc]
  | cons y ys ih =>
    simp only [insertByDesc]
    split
    · exact List.Perm.refl _
    · exact (List.Perm.cons y ih).trans (List.Perm.swap x y ys)

theorem sortByDesc_perm (key : α → Int) (l : List α) :
    List.Perm (sortByDesc key l) l := by
  induction l with
  | nil => simp [sortByDesc]
  | cons x xs ih =>
    exact (insertByDesc_perm key x (sortByDesc key xs)).trans (List.Perm.cons x ih)

theorem mem_insertByDesc (key : α → Int) (x : α) (l : List α) (z : α) :
    z ∈ insertByDesc key x l ↔ z = x ∨ z ∈ l := by
  rw [(insertByDesc_perm key x l).mem_iff, List.mem_cons]

theorem pairwise_insertByDesc (key : α → Int) (x : α) (l : List α)
    (h : List.Pairwise (fun a b => key b ≤ key a) l) :
    List.Pairwise (fun a b => key b ≤ key a) (insertByDesc key x l) := by
  induction l with
  | nil => simp [insertByDesc]
  | cons y ys ih =>
    simp only [insertByDesc]
    rcases List.pairwise_cons.mp h with ⟨hy, hys⟩
    split
    · rename_i hxy
      refine List.pairwise_cons.mpr ⟨?_, h⟩
      intro z hz
      rcases List.mem_cons.mp hz with rfl | hz
      · exact hxy
      · exact le_trans (hy z hz) hxy
    · rename_i hxy
      refine List.pairwise_cons.mpr ⟨?_, ih hys⟩
      intro z hz
      rcases (mem_insertByDesc key x ys z).mp hz with rfl | hz
      · exact le_of_lt (lt_of_not_le hxy)
      · exact hy z hz

theorem pairwise_sortByDesc (key : α → Int) (l : List α) :
    List.Pairwise (fun a b => key b ≤ key a) (sortByDesc key l) := by
  induction l with
  | nil => simp [sortByDesc]
  | cons x xs ih => exact pairwise_insertByDesc key x (sortByDesc key xs) ih

/-- First-seen deduplication by a key, with an accumulator of already
seen keys.  `firstSeenBy key seen l` keeps exactly the elements of `l`
whose key is not in `seen` and has not occurred earlier in `l`. -/
def firstSeenBy [DecidableEq κ] (key : α → κ) (seen : List κ) : List α → List α
  | [] => []
  | x :: xs =>
    if key x ∈ seen then firstSeenBy key seen xs
    else x :: firstSeenBy key (key x :: seen) xs

theorem firstSeenBy_sublist [DecidableEq κ] (key : α → κ) (seen : List κ) (l : List α) :
    (firstSeenBy key seen l).Sublist l := by
  induction l generalizing seen with
  | nil => simp [firstSeenBy]
  | cons x xs ih =>
    simp only [firstSeenBy]
    split
    · exact (ih seen).cons x
    · exact (ih (key x :: seen)).cons₂ x

theorem countP_firstSeenBy [DecidableEq κ] (key : α → κ) (seen : List κ)
    (l : List α) (k : κ) :
    (firstSeenBy key seen l).countP (fun t => decide (key t = k)) =
      if k ∉ seen ∧ l.any (fun t => decide (key t = k)) then 1 else 0 := by
  induction l generalizing seen with
  | nil => simp [firstSeenBy]
  | cons x xs ih =>
    simp only [firstSeenBy]
    split
    · rename_i hx
      rw [ih seen]
      by_cases hk : k ∈ seen
      · simp [hk]
      · have hxk : ¬ key x = k := fun h => hk (h ▸ hx)
        simp [hk, hxk]
    · rename_i hx
      by_cases hxk : key x = k
      · subst hxk
        rw [List.countP_cons, ih (key x :: seen)]
        simp [hx]
      · rw [List.countP_cons, ih (key x :: seen)]
        by_cases hk : k ∈ seen
        · simp [hk, hxk]
        · have hkx : k ∉ key x :: seen := by
            intro hmem
            rcases List.mem_cons.mp hmem with h | h
            · exact hxk h.symm
            · exact hk h
          simp [hk, hxk, hkx]

theorem mem_firstSeenBy [DecidableEq κ] (key : α → κ) (seen : List κ)
    (l : List α) (w : α) :
    w ∈ firstSeenBy key seen l ↔
      key w ∉ seen ∧ l.find? (fun t => decide (key t = key w)) = some w := by
  induction l generalizing seen with
  | nil => simp [firstSeenBy]
  | cons x xs ih =>
    simp only [firstSeenBy]
    split
    · rename_i hx
      rw [ih seen, List.find?_cons]
      by_cases hxw : key x = key w
      · constructor
        · rintro ⟨hns, -⟩
          exact absurd (hxw ▸ hx) hns
        · rintro ⟨hns, -⟩
          exact absurd (hxw ▸ hx) hns
      · simp [hxw]
    · rename_i hx
      rw [List.mem_cons, ih (key x :: seen), List.find?_cons]
      by_cases hxw : key x = key w
      · simp only [hxw, decide_True]
        constructor
        · rintro (rfl | ⟨hns, -⟩)
          · exact ⟨hxw ▸ hx, rfl⟩
          · exact absurd (List.mem_cons_self _ _) hns
        · rintro ⟨-, hsome⟩
          exact Or.inl (Option.some_injective _ hsome).symm
      · simp only [hxw, decide_False]
        constructor
        · rintro (rfl | ⟨hns, hfind⟩)
          · exact absurd rfl hxw
          · exact ⟨fun hmem => hns (List.mem_cons_of_mem _ hmem), hfind⟩
        · rintro ⟨hns, hfind⟩
          refine Or.inr ⟨?_, hfind⟩
          intro hmem
          rcases List.mem_cons.mp hmem with h | h
          · exact hxw h.symm
          · exact hns h

/-- Embedding of JavaScript `Array.prototype.filter` when the callback
also receives the element's index: `filterIdxFrom p i l` filters `l`,
passing `i`, `i+1`, ... as the indices. -/
def filterIdxFrom (p : Nat → α → Bool) : Nat → List α → List α
  | _, [] => []
  | i, x :: xs =>
    if p i x then x :: filterIdxFrom p (i + 1) xs else filterIdxFrom p (i + 1) xs

theorem findIdx_append_cons (p : α → Bool) (x : α) (xs : List α)
    (hx : p x = true) :
    ∀ pre : List α,
      ((pre ++ x :: xs).findIdx p = pre.length ↔ ∀ t ∈ pre, p t = false) := by
  intro pre
  induction pre with
  | nil =>
    simp [List.findIdx_cons, hx]
  | cons y pre ih =>
    rw [List.cons_append, List.findIdx_cons]
    cases hy : p y with
    | true =>
      simp only [cond_true, List.length_cons]
      constructor
      · intro h
        exact absurd h.symm (Nat.succ_ne_zero _)
      · intro h
        exact absurd (h y (List.mem_cons_self _ _)) (by simp [hy])
    | false =>
      simp only [cond_false, List.length_cons, Nat.succ_inj']
      rw [ih]
      constructor
      · intro h t ht
        rcases List.mem_cons.mp ht with rfl | ht
        · exact hy
        · exact h t ht
      · intro h t ht
        exact h t (List.mem_cons_of_mem _ ht)

/-- The shape shared by the repository's
`arr.filter((v, i) => arr.findIndex(pred v) === i)` de-duplication
idiom: whenever the kept-element condition at each position amounts to
"no earlier element of the array has the same key", the idiom computes
the first-seen de-duplication by that key. -/
theorem filterIdx_eq_firstSeenBy [DecidableEq κ] (key : α → κ) (l : List α)
    (P : Nat → α → Bool)
    (H : ∀ pre x xs, l = pre ++ x :: xs →
      (P pre.length x = true ↔ key x ∉ pre.map key)) :
    ∀ (suf pre : List α) (seen : List κ), l = pre ++ suf →
      (∀ k, k ∈ seen ↔ k ∈ pre.map key) →
      filterIdxFrom P pre.length suf = firstSeenBy key seen suf := by
  intro suf
  induction suf with
  | nil => intro pre seen _ _; rfl
  | cons x xs ih =>
    intro pre seen hl hseen
    have hP : P pre.length x = true ↔ key x ∉ pre.map key := H pre x xs hl
    have hstep : ∀ kk, kk ∈ seen ∨ kk = key x ↔ kk ∈ (pre ++ [x]).map key := by
      intro kk
      rw [List.map_append, List.mem_append, List.map_singleton, List.mem_singleton]
      exact or_congr (hseen kk) Iff.rfl
    have hlen : (pre ++ [x]).length = pre.length + 1 := by
      simp
    have hl' : l = (pre ++ [x]) ++ xs := by
      rw [hl, List.append_assoc]; rfl
    simp only [filterIdxFrom, firstSeenBy]
    by_cases hk : key x ∈ seen
    · have hkm : key x ∈ pre.map key := (hseen (key x)).mp hk
      have hPf : P pre.length x = false := by
        cases hPx : P pre.length x with
        | false => rfl
        | true => exact absurd hkm (hP.mp hPx)
      rw [hPf, if_neg (by simp), if_pos hk]
      have := ih (pre ++ [x]) seen hl' ?_
      · rw [hlen] at this
        exact this
      · intro kk
        rw [← hstep kk]
        constructor
        · intro h; exact Or.inl h
        · rintro (h | rfl)
          · exact h
          · exact hk
    · have hkm : key x ∉ pre.map key := fun h => hk ((hseen (key x)).mpr h)
      rw [if_pos (hP.mpr hkm), if_neg hk]
      have := ih (pre ++ [x]) (key x :: seen) hl' ?_
      · rw [hlen] at this
        rw [this]
      · intro kk
        rw [← hstep kk, List.mem_cons]
        constructor
        · rintro (rfl | h)
          · exact Or.inr rfl
          · exact Or.inl h
        · rintro (h | rfl)
          · exact Or.inr h
          · exact Or.inl rfl

theorem forall_false_iff_not_mem_map [DecidableEq κ] (key : α → κ) (x : α)
    (p : α → Bool) (hp : ∀ t, p t = true ↔ key t = key x) (pre : List α) :
    (∀ t ∈ pre, p t = false) ↔ key x ∉ pre.map key := by
  constructor
  · intro h hmem
    rcases List.mem_map.mp hmem with ⟨t, ht, hkt⟩
    have hpt : p t = true := (hp t).mpr hkt
    rw [h t ht] at hpt
    exact Bool.false_ne_true hpt
  · intro h t ht
    cases hpt : p t with
    | false => rfl
    | true => exact absurd (List.mem_map.mpr ⟨t, ht, (hp t).mp hpt⟩) h

theorem any_eq_of_perm (p : α → Bool) {l₁ l₂ : List α} (h : List.Perm l₁ l₂) :
    l₁.any p = l₂.any p := by
  rw [Bool.eq_iff_iff, List.any_eq_true, List.any_eq_true]
  constructor
  · rintro ⟨x, hx, hp⟩
    exact ⟨x, h.mem_iff.mp hx, hp⟩
  · rintro ⟨x, hx, hp⟩
    exact ⟨x, h.mem_iff.mpr hx, hp⟩

theorem any_map_fun (f : α → β) (p : β → Bool) (l : List α) :
    (l.map f).any p = l.any (fun t => p (f t)) := by
  induction l with
  | nil => rfl
  | cons x xs ih => simp [List.any_cons, ih]

theorem any_filter_fun (q p : α → Bool) (l : List α) :
    (l.filter q).any p = l.any (fun t => q t && p t) := by
  induction l with
  | nil => rfl
  | cons x xs ih =>
    rw [List.filter_cons]
    cases hq : q x <;> simp [List.any_cons, hq, ih]

/-- Numeric value of a list of decimal digit characters. -/
def digitsVal (l : List Char) : Nat :=
  l.foldl (fun a c => a * 10 + (c.toNat - 48)) 0

/-- Embedding of JavaScript `parseInt` (radix 10) on the strings this
code feeds it: skip leading whitespace, read an optional sign and then a
maximal run of decimal digits; `none` models `NaN` (no digits found).
The hexadecimal `0x` corner of `parseInt` cannot arise from quality
labels and is not modelled. -/
def jsParseInt (s : String) : Option Int :=
  let l := s.data.dropWhile (fun c => c = ' ' || c = '\t' || c = '\n' || c = '\r')
  match l with
  | '-' :: rest =>
    let d := rest.takeWhile Char.isDigit
    if d.isEmpty then none else some (-(digitsVal d : Int))
  | '+' :: rest =>
    let d := rest.takeWhile Char.isDigit
    if d.isEmpty then none else some (digitsVal d : Int)
  | _ =>
    let d := l.takeWhile Char.isDigit
    if d.isEmpty then none else some (digitsVal d : Int)

/-! ## The YouTube info route (`src/app/api/youtube/info/route.ts`) -/

namespace YoutubeInfo

/-- A raw stream descriptor as delivered by the video-metadata
capability (`ytdl.getInfo(...).formats`).  `contentLength` is `some n`
when the descriptor carries a non-empty numeric byte-length string
(JavaScript truthiness of the string), `bitrate`/`audioBitrate` are
`some` when the numeric field is present, and `none` models
`undefined`/`null`. -/
structure RawFormat where
  itag : Nat
  qualityLabel : String
  container : String
  hasAudio : Bool
  hasVideo : Bool
  url : String
  fps : Option Nat
  bitrate : Option Nat
  audioBitrate : Option Nat
  contentLength : Option Nat
deriving DecidableEq

/-- Embedding of the route's `getSize` helper: the authoritative
`contentLength` when present, else `floor(bitrate * lengthSeconds / 8)`
when both a bitrate and a video duration are present, else `0`.
`lengthSeconds` is `some d` when `videoDetails.lengthSeconds` is a
non-empty (truthy) numeric string parsing to `d`.  A `bitrate` of `0` is
falsy in the source and yields `0` there; here `0 * d / 8 = 0` agrees,
so the truthiness test needs no separate branch. -/
def getSize (lengthSeconds : Option Nat) (f : RawFormat) : Nat :=
  match f.contentLength with
  | some n => n
  | none =>
    match f.bitrate, lengthSeconds with
    | some b, some d => b * d / 8
    | _, _ => 0

/-- The simplified video-format record the route sends to the frontend. -/
structure SimplifiedFormat where
  itag : Nat
  qualityLabel : String
  container : String
  hasAudio : Bool
  hasVideo : Bool
  url : String
  size : Nat
  fps : Option Nat
deriving DecidableEq

/-- The element-wise mapping inside `simplifiedFormats`. -/
def simplifyVideo (lengthSeconds : Option Nat) (f : RawFormat) : SimplifiedFormat :=
  { itag := f.itag, qualityLabel := f.qualityLabel, container := f.container,
    hasAudio := f.hasAudio, hasVideo := f.hasVideo, url := f.url,
    size := getSize lengthSeconds f, fps := f.fps }

/-- Embedding of the route's `getRes` helper `parseInt(s) || 0`: the
parsed numeric value of the label, with both `NaN` and `0` collapsing
to `0`. -/
def getRes (s : String) : Int :=
  (jsParseInt s).getD 0

/-- `ytdl.filterFormats(info.formats, f => !!f.hasVideo)`. -/
def videoFormats (fs : List RawFormat) : List RawFormat :=
  fs.filter (fun f => f.hasVideo)

/-- `ytdl.filterFormats(info.formats, f => !!f.hasAudio && !f.hasVideo)`. -/
def audioFormats (fs : List RawFormat) : List RawFormat :=
  fs.filter (fun f => f.hasAudio && !f.hasVideo)

/-- The route's `simplifiedFormats`: video-bearing descriptors mapped to
simplified records and stably sorted descending by the numeric prefix of
`qualityLabel`. -/
def simplifiedFormats (lengthSeconds : Option Nat) (fs : List RawFormat) :
    List SimplifiedFormat :=
  sortByDesc (fun a => getRes a.qualityLabel)
    ((videoFormats fs).map (simplifyVideo lengthSeconds))

/-- The composite de-duplication key of the video catalog. -/
def videoKey (v : SimplifiedFormat) : String × String × Bool :=
  (v.qualityLabel, v.container, v.hasAudio)

/-- The route's `uniqueVideoFormats`: `simplifiedFormats.filter((v, i, a)
=> ...)` keeping `v` when it is the first entry with its `qualityLabel`,
or else the first entry with its full `(qualityLabel, container,
hasAudio)` combination. -/
def uniqueVideoFormats (lengthSeconds : Option Nat) (fs : List RawFormat) :
    List SimplifiedFormat :=
  filterIdxFrom (fun i v =>
    let firstIndex := (simplifiedFormats lengthSeconds fs).findIdx
      (fun t => t.qualityLabel == v.qualityLabel)
    if i == firstIndex then true
    else (simplifiedFormats lengthSeconds fs).findIdx
      (fun t => t.qualityLabel == v.qualityLabel && t.container == v.container &&
        t.hasAudio == v.hasAudio) == i)
    0 (simplifiedFormats lengthSeconds fs)

/-- The simplified audio-format record the route sends to the frontend. -/
structure SimplifiedAudioFormat where
  itag : Nat
  qualityLabel : String
  container : String
  hasAudio : Bool
  hasVideo : Bool
  audioBitrate : Option Nat
  size : Nat
deriving DecidableEq

/-- The element-wise mapping inside `simplifiedAudioFormats`, including
the label synthesis `` `${f.audioBitrate}kbps` `` (an absent bitrate
renders as the string `"undefined"`, as in JavaScript). -/
def simplifyAudio (lengthSeconds : Option Nat) (f : RawFormat) : SimplifiedAudioFormat :=
  { itag := f.itag,
    qualityLabel := (match f.audioBitrate with
      | some n => Nat.repr n
      | none => "undefined") ++ "kbps",
    container := f.container, hasAudio := f.hasAudio, hasVideo := f.hasVideo,
    audioBitrate := f.audioBitrate, size := getSize lengthSeconds f }

/-- The audio list after `.map(...).sort((a, b) => (b.audioBitrate || 0)
- (a.audioBitrate || 0))`, before the de-duplication filter. -/
def sortedAudioFormats (lengthSeconds : Option Nat) (fs : List RawFormat) :
    List SimplifiedAudioFormat :=
  sortByDesc (fun a => (a.audioBitrate.getD 0 : Int))
    ((audioFormats fs).map (simplifyAudio lengthSeconds))

/-- The route's `simplifiedAudioFormats`: the sorted audio list with
duplicate `itag`s removed by `.filter((v, i, a) => a.findIndex(t =>
t.itag === v.itag) === i)`. -/
def simplifiedAudioFormats (lengthSeconds : Option Nat) (fs : List RawFormat) :
    List SimplifiedAudioFormat :=
  filterIdxFrom (fun i v =>
    (sortedAudioFormats lengthSeconds fs).findIdx (fun t => t.itag == v.itag) == i)
    0 (sortedAudioFormats lengthSeconds fs)

/-- The route's `bestAudio = simplifiedAudioFormats[0]` (`undefined`,
i.e. `none`, when the catalog is empty). -/
def bestAudio (lengthSeconds : Option Nat) (fs : List RawFormat) :
    Option SimplifiedAudioFormat :=
  (simplifiedAudioFormats lengthSeconds fs).head?

theorem uniqueVideoFormats_eq_firstSeen (d : Option Nat) (fs : List RawFormat) :
    uniqueVideoFormats d fs = firstSeenBy videoKey [] (simplifiedFormats d fs) := by
  have H : ∀ pre x xs, simplifiedFormats d fs = pre ++ x :: xs →
      ((fun i v =>
        let firstIndex := (simplifiedFormats d fs).findIdx
          (fun t => t.qualityLabel == v.qualityLabel)
        if i == firstIndex then true
        else (simplifiedFormats d fs).findIdx
          (fun t => t.qualityLabel == v.qualityLabel && t.container == v.container &&
            t.hasAudio == v.hasAudio) == i) pre.length x = true
        ↔ videoKey x ∉ pre.map videoKey) := by
    intro pre x xs hsplit
    have hlab := findIdx_append_cons
      (fun t => t.qualityLabel == x.qualityLabel) x xs (by simp) pre
    have hfull := findIdx_append_cons
      (fun t => t.qualityLabel == x.qualityLabel && t.container == x.container &&
        t.hasAudio == x.hasAudio) x xs (by simp) pre
    rw [← hsplit] at hlab hfull
    have hfull_iff : (∀ t ∈ pre,
        (t.qualityLabel == x.qualityLabel && t.container == x.container &&
          t.hasAudio == x.hasAudio) = false) ↔ videoKey x ∉ pre.map videoKey := by
      apply forall_false_iff_not_mem_map
      intro t
      simp [videoKey, Prod.ext_iff, and_assoc]
    show (if pre.length == (simplifiedFormats d fs).findIdx
        (fun t => t.qualityLabel == x.qualityLabel) then true
      else ((simplifiedFormats d fs).findIdx
        (fun t => t.qualityLabel == x.qualityLabel && t.container == x.container &&
          t.hasAudio == x.hasAudio) == pre.length)) = true
      ↔ videoKey x ∉ pre.map videoKey
    by_cases hl : (simplifiedFormats d fs).findIdx
        (fun t => t.qualityLabel == x.qualityLabel) = pre.length
    · have hall : ∀ t ∈ pre, (t.qualityLabel == x.qualityLabel) = false := hlab.mp hl
      have hnotin : videoKey x ∉ pre.map videoKey := by
        apply hfull_iff.mp
        intro t ht
        rw [hall t ht]
        simp
      rw [if_pos (by rw [hl]; simp)]
      simp [hnotin]
    · rw [if_neg (by
        intro hbeq
        simp only [beq_iff_eq] at hbeq
        exact hl hbeq.symm)]
      rw [beq_iff_eq, hfull, hfull_iff]
  have := filterIdx_eq_firstSeenBy videoKey (simplifiedFormats d fs)
    (fun i v =>
      let firstIndex := (simplifiedFormats d fs).findIdx
        (fun t => t.qualityLabel == v.qualityLabel)
      if i == firstIndex then true
      else (simplifiedFormats d fs).findIdx
        (fun t => t.qualityLabel == v.qualityLabel && t.container == v.container &&
          t.hasAudio == v.hasAudio) == i) H
    (simplifiedFormats d fs) [] [] rfl (by simp)
  exact this

theorem simplifiedAudioFormats_eq_firstSeen (d : Option Nat) (fs : List RawFormat) :
    simplifiedAudioFormats d fs =
      firstSeenBy (fun t => t.itag) [] (sortedAudioFormats d fs) := by
  have H : ∀ pre x xs, sortedAudioFormats d fs = pre ++ x :: xs →
      ((fun i v => (sortedAudioFormats d fs).findIdx (fun t => t.itag == v.itag) == i)
          pre.length x = true
        ↔ (fun t : SimplifiedAudioFormat => t.itag) x ∉
            pre.map (fun t : SimplifiedAudioFormat => t.itag)) := by
    intro pre x xs hsplit
    have hfind := findIdx_append_cons (fun t => t.itag == x.itag) x xs (by simp) pre
    rw [← hsplit] at hfind
    have hiff := forall_false_iff_not_mem_map (fun t : SimplifiedAudioFormat => t.itag) x
      (fun t => t.itag == x.itag) (fun t => by simp) pre
    show ((sortedAudioFormats d fs).findIdx (fun t => t.itag == x.itag) == pre.length) = true
      ↔ x.itag ∉ pre.map (fun t : SimplifiedAudioFormat => t.itag)
    rw [beq_iff_eq, hfind, hiff]
  have := filterIdx_eq_firstSeenBy (fun t : SimplifiedAudioFormat => t.itag)
    (sortedAudioFormats d fs)
    (fun i v => (sortedAudioFormats d fs).findIdx (fun t => t.itag == v.itag) == i)
    H (sortedAudioFormats d fs) [] [] rfl (by simp)
  exact this

/-- Convenience constructor for concrete raw descriptors in the examples
below; the audio bitrate is derived from the itag so distinct descriptors
get distinct bitrates. -/
def mkRaw (itag : Nat) (ql cont : String) (hA hV : Bool) : RawFormat :=
  { itag := itag, qualityLabel := ql, container := cont, hasAudio := hA,
    hasVideo := hV, url := "u", fps := none, bitrate := some 1000,
    audioBitrate := some (itag + 10), contentLength := some 5 }

/-- Three video descriptors with labels 1080p, 360p, 720p. -/
def exampleFormats : List RawFormat :=
  [mkRaw 1 "1080p" "mp4" true true, mkRaw 2 "360p" "mp4" true true,
   mkRaw 3 "720p" "mp4" true true]

/-- Four 720p descriptors: two identical `(720p, mp4, with-audio)` keys,
one webm, and one without audio. -/
def exampleDupFormats : List RawFormat :=
  [mkRaw 10 "720p" "mp4" true true, mkRaw 11 "720p" "mp4" true true,
   mkRaw 12 "720p" "webm" true true, mkRaw 13 "720p" "mp4" false true]

/-- Audio-only descriptors with a duplicated itag. -/
def exampleAudioFormats : List RawFormat :=
  [mkRaw 21 "" "webm" true false, mkRaw 22 "" "webm" true false,
   mkRaw 21 "" "webm" true false]

/-- A descriptor with no authoritative byte length and a bitrate of
1,000,000 bit/s. -/
def exampleBitrateFormat : RawFormat :=
  { itag := 30, qualityLabel := "720p", container := "mp4", hasAudio := true,
    hasVideo := true, url := "u", fps := none, bitrate := some 1000000,
    audioBitrate := none, contentLength := none }

/-- Claim C1: for every input list of stream descriptors the built video
catalog (`uniqueVideoFormats`) contains exactly one entry per composite
key `(qualityLabel, container, hasAudio)` occurring among the
video-bearing descriptors — so two descriptors with an identical key
yield a single entry while descriptors differing in any key component
each keep one — and every catalog entry is the simplified image of an
input descriptor. -/
theorem video_catalog_dedup (lengthSeconds : Option Nat) (fs : List RawFormat)
    (k : String × String × Bool) :
    ((uniqueVideoFormats lengthSeconds fs).countP (fun t => decide (videoKey t = k)) =
      if fs.any (fun f => f.hasVideo &&
          decide ((f.qualityLabel, f.container, f.hasAudio) = k)) = true then 1 else 0)
    ∧ (∀ v ∈ uniqueVideoFormats lengthSeconds fs,
        ∃ f ∈ fs, f.hasVideo = true ∧ simplifyVideo lengthSeconds f = v) := by
  constructor
  · rw [uniqueVideoFormats_eq_firstSeen, countP_firstSeenBy]
    have h1 : (simplifiedFormats lengthSeconds fs).any (fun t => decide (videoKey t = k)) =
        fs.any (fun f => f.hasVideo &&
          decide ((f.qualityLabel, f.container, f.hasAudio) = k)) := by
      unfold simplifiedFormats videoFormats
      rw [any_eq_of_perm _ (sortByDesc_perm _ _), any_map_fun, any_filter_fun]
      rfl
    rw [h1]
    simp
  · intro v hv
    rw [uniqueVideoFormats_eq_firstSeen] at hv
    have hmem : v ∈ simplifiedFormats lengthSeconds fs :=
      (firstSeenBy_sublist _ _ _).subset hv
    have hmem2 : v ∈ (videoFormats fs).map (simplifyVideo lengthSeconds) :=
      (sortByDesc_perm _ _).mem_iff.mp hmem
    rcases List.mem_map.mp hmem2 with ⟨f, hf, rfl⟩
    rcases List.mem_filter.mp hf with ⟨hfs, hvdo⟩
    exact ⟨f, hfs, hvdo, rfl⟩

/-- Witness for C1: among four 720p descriptors — two identical
`(720p, mp4, with-audio)`, one webm, one without audio — exactly one
mp4-with-audio entry survives, and the surviving first entry is the
image of an input descriptor. -/
theorem video_catalog_dedup_witness :
    ((uniqueVideoFormats (some 212) exampleDupFormats).countP
      (fun t => decide (videoKey t = ("720p", "mp4", true))) = 1)
    ∧ ∃ f ∈ exampleDupFormats, f.hasVideo = true ∧
        simplifyVideo (some 212) f = simplifyVideo (some 212) (mkRaw 10 "720p" "mp4" true true) := by
  constructor
  · rw [(video_catalog_dedup (some 212) exampleDupFormats ("720p", "mp4", true)).1]
    decide
  · exact (video_catalog_dedup (some 212) exampleDupFormats ("720p", "mp4", true)).2
      (simplifyVideo (some 212) (mkRaw 10 "720p" "mp4" true true)) (by decide)

/-- Claim C2: the built video catalog is ordered descending by the
numeric prefix of `qualityLabel`; a label with no parseable numeric
prefix gets sort key 0 and therefore comes after every entry whose label
parses to a positive number; labels 1080p/360p/720p come out as
[1080p, 720p, 360p]. -/
theorem video_catalog_ordering (lengthSeconds : Option Nat) (fs : List RawFormat) :
    List.Pairwise (fun a b => getRes b.qualityLabel ≤ getRes a.qualityLabel)
      (uniqueVideoFormats lengthSeconds fs)
    ∧ (∀ s, jsParseInt s = none → getRes s = 0)
    ∧ (∀ i j : Fin (uniqueVideoFormats lengthSeconds fs).length,
        jsParseInt ((uniqueVideoFormats lengthSeconds fs).get i).qualityLabel = none →
        0 < getRes ((uniqueVideoFormats lengthSeconds fs).get j).qualityLabel →
        (j : Nat) < (i : Nat))
    ∧ (uniqueVideoFormats (some 212) exampleFormats).map (fun v => v.qualityLabel) =
        ["1080p", "720p", "360p"] := by
  have hpair : List.Pairwise (fun a b => getRes b.qualityLabel ≤ getRes a.qualityLabel)
      (uniqueVideoFormats lengthSeconds fs) := by
    rw [uniqueVideoFormats_eq_firstSeen]
    exact List.Pairwise.sublist (firstSeenBy_sublist _ _ _)
      (pairwise_sortByDesc (fun a : SimplifiedFormat => getRes a.qualityLabel) _)
  refine ⟨hpair, ?_, ?_, ?_⟩
  · intro s h
    unfold getRes
    rw [h]
    rfl
  · intro i j hnone hpos
    have hget := List.pairwise_iff_get.mp hpair
    by_contra hji
    have hij : (i : Nat) ≤ (j : Nat) := Nat.le_of_not_lt hji
    have hkey0 : getRes ((uniqueVideoFormats lengthSeconds fs).get i).qualityLabel = 0 := by
      unfold getRes
      rw [hnone]
      rfl
    rcases Nat.eq_or_lt_of_le hij with heq | hlt
    · have heqf : i = j := Fin.ext heq
      rw [← heqf, hkey0] at hpos
      exact lt_irrefl 0 hpos
    · have hle := hget i j hlt
      rw [hkey0] at hle
      exact absurd (lt_of_lt_of_le hpos hle) (lt_irrefl 0)
  · decide

/-- Witness for C2: a label with no numeric prefix gets sort key 0. -/
theorem video_catalog_ordering_witness : getRes "audio only" = 0 :=
  (video_catalog_ordering (some 212) exampleFormats).2.1 "audio only" (by decide)

/-- Claim C3: the estimated size is the authoritative byte length when
present, else `floor(bitrate * durationSeconds / 8)` when both a bitrate
and a known duration are present, else 0; a bitrate of 1,000,000 bit/s
over 8 seconds estimates to exactly 1,000,000 bytes. -/
theorem size_estimation (lengthSeconds : Option Nat) (f : RawFormat) :
    (∀ n, f.contentLength = some n → getSize lengthSeconds f = n)
    ∧ (∀ b d, f.contentLength = none → f.bitrate = some b → lengthSeconds = some d →
        getSize lengthSeconds f = b * d / 8)
    ∧ (f.contentLength = none → f.bitrate = none → getSize lengthSeconds f = 0)
    ∧ (f.contentLength = none → lengthSeconds = none → getSize lengthSeconds f = 0)
    ∧ getSize (some 8) exampleBitrateFormat = 1000000 := by
  refine ⟨?_, ?_, ?_, ?_, by decide⟩
  · intro n h
    unfold getSize
    rw [h]
  · intro b d h1 h2 h3
    unfold getSize
    rw [h1, h2, h3]
  · intro h1 h2
    unfold getSize
    rw [h1, h2]
  · intro h1 h2
    unfold getSize
    rw [h1, h2]
    cases hb : f.bitrate <;> rfl

/-- Witness for C3: the estimation branch applied at bitrate 1,000,000
and duration 8. -/
theorem size_estimation_witness :
    getSize (some 8) exampleBitrateFormat = 1000000 * 8 / 8 :=
  (size_estimation (some 8) exampleBitrateFormat).2.1 1000000 8 rfl rfl rfl

/-- Claim C4: the audio catalog is the audio-only descriptors,
de-duplicated strictly by itag (the first occurrence in the sorted order
is kept), ordered descending by audio bitrate with an unknown bitrate
sorting as key 0 (after every positive-bitrate entry), and `bestAudio`
is the first entry of that ordered de-duplicated catalog, or `none` when
it is empty. -/
theorem audio_catalog (lengthSeconds : Option Nat) (fs : List RawFormat) :
    List.Pairwise (fun a b => b.audioBitrate.getD 0 ≤ a.audioBitrate.getD 0)
      (simplifiedAudioFormats lengthSeconds fs)
    ∧ (∀ g : Nat, (simplifiedAudioFormats lengthSeconds fs).countP
        (fun t => decide (t.itag = g)) =
        if fs.any (fun f => f.hasAudio && !f.hasVideo && decide (f.itag = g)) = true
        then 1 else 0)
    ∧ (∀ w ∈ simplifiedAudioFormats lengthSeconds fs,
        (sortedAudioFormats lengthSeconds fs).find?
          (fun t => decide (t.itag = w.itag)) = some w)
    ∧ (∀ i j : Fin (simplifiedAudioFormats lengthSeconds fs).length,
        ((simplifiedAudioFormats lengthSeconds fs).get i).audioBitrate = none →
        0 < ((simplifiedAudioFormats lengthSeconds fs).get j).audioBitrate.getD 0 →
        (j : Nat) < (i : Nat))
    ∧ bestAudio lengthSeconds fs = (simplifiedAudioFormats lengthSeconds fs).head? := by
  have hpairZ : List.Pairwise (fun a b : SimplifiedAudioFormat =>
      (b.audioBitrate.getD 0 : Int) ≤ (a.audioBitrate.getD 0 : Int))
      (sortedAudioFormats lengthSeconds fs) :=
    pairwise_sortByDesc (fun a : SimplifiedAudioFormat => (a.audioBitrate.getD 0 : Int)) _
  have hpair : List.Pairwise (fun a b : SimplifiedAudioFormat =>
      b.audioBitrate.getD 0 ≤ a.audioBitrate.getD 0)
      (simplifiedAudioFormats lengthSeconds fs) := by
    rw [simplifiedAudioFormats_eq_firstSeen]
    refine List.Pairwise.sublist (firstSeenBy_sublist _ _ _) (hpairZ.imp ?_)
    intro a b h
    exact_mod_cast h
  refine ⟨hpair, ?_, ?_, ?_, rfl⟩
  · intro g
    rw [simplifiedAudioFormats_eq_firstSeen, countP_firstSeenBy]
    have h1 : (sortedAudioFormats lengthSeconds fs).any (fun t => decide (t.itag = g)) =
        fs.any (fun f => f.hasAudio && !f.hasVideo && decide (f.itag = g)) := by
      unfold sortedAudioFormats audioFormats
      rw [any_eq_of_perm _ (sortByDesc_perm _ _), any_map_fun, any_filter_fun]
      rfl
    rw [h1]
    simp
  · intro w hw
    rw [simplifiedAudioFormats_eq_firstSeen] at hw
    exact ((mem_firstSeenBy _ _ _ _).mp hw).2
  · intro i j hnone hpos
    have hget := List.pairwise_iff_get.mp hpair
    by_contra hji
    have hij : (i : Nat) ≤ (j : Nat) := Nat.le_of_not_lt hji
    have hkey0 : ((simplifiedAudioFormats lengthSeconds fs).get i).audioBitrate.getD 0 = 0 := by
      rw [hnone]
      rfl
    rcases Nat.eq_or_lt_of_le hij with heq | hlt
    · have heqf : i = j := Fin.ext heq
      rw [← heqf, hkey0] at hpos
      exact lt_irrefl 0 hpos
    · have hle := hget i j hlt
      rw [hkey0] at hle
      exact absurd (lt_of_lt_of_le hpos hle) (lt_irrefl 0)

/-- Witness for C4: the duplicated itag 21 keeps exactly one entry, and
the itag-22 entry kept is the first itag-22 entry of the sorted list. -/
theorem audio_catalog_witness :
    ((simplifiedAudioFormats (some 212) exampleAudioFormats).countP
        (fun t => decide (t.itag = 21)) = 1)
    ∧ (sortedAudioFormats (some 212) exampleAudioFormats).find?
        (fun t => decide (t.itag = 22)) =
      some (simplifyAudio (some 212) (mkRaw 22 "" "webm" true false)) := by
  constructor
  · rw [(audio_catalog (some 212) exampleAudioFormats).2.1 21]
    decide
  · exact (audio_catalog (some 212) exampleAudioFormats).2.2.1
      (simplifyAudio (some 212) (mkRaw 22 "" "webm" true false)) (by decide)

end YoutubeInfo

/-! ## Platform classification -/

/-- Platforms the application supports. -/
inductive Platform
  | instagram
  | starmaker
  | youtube
deriving DecidableEq

namespace DownloadForm

/-- Embedding of the client's `detectPlatform`: Instagram's domain is
checked first, then the two StarMaker domain variants, then the YouTube
domains; `none` for anything else. -/
def detectPlatform (inputUrl : String) : Option Platform :=
  if strContains inputUrl "instagram.com" then some Platform.instagram
  else if strContains inputUrl "starmakerstudios.com" ||
      strContains inputUrl "starmaker.co" then some Platform.starmaker
  else if strContains inputUrl "youtube.com" || strContains inputUrl "youtu.be" then
    some Platform.youtube
  else none

end DownloadForm

/-! ## The download route (Instagram + StarMaker) -/

namespace DownloadRoute

/-- Resolved media data returned by the download route (`MediaData`). -/
structure MediaData where
  type : String
  url : String
  thumbnail : Option String := none
  title : Option String := none
  urls : Option (List String) := none
  platform : Option String := none
deriving DecidableEq

/-- The character class `[A-Za-z0-9_-]` of the shortcode patterns. -/
def shortcodeChar (c : Char) : Bool :=
  c.isAlphanum || c == '_' || c == '-'

/-- Leftmost match of a regex of the shape `<literal><class>+`, with the
capture group being the maximal run of class characters following the
literal — the semantics JavaScript `String.prototype.match` gives the
post, reel and recordingId patterns used here.  Returns the capture. -/
def matchLitClass (lit : List Char) (cls : Char → Bool) : List Char → Option (List Char)
  | [] => none
  | c :: rest =>
    if lit.isPrefixOf (c :: rest) then
      match (c :: rest).drop lit.length with
      | d :: ds =>
        if cls d then some (List.takeWhile cls (d :: ds)) else matchLitClass lit cls rest
      | [] => matchLitClass lit cls rest
    else matchLitClass lit cls rest

def litPost : List Char := "instagram.com/p/".data

def litReelSlash : List Char := "instagram.com/reel/".data

def litReel : List Char := "instagram.com/reel".data

def litStories : List Char := "instagram.com/stories/".data

def litRecordingId : List Char := "recordingId=".data

/-- Leftmost match of `/instagram\.com\/reels?\/([A-Za-z0-9_-]+)/`: an
optional `s` after `reel`, then a slash, then the captured shortcode
run. -/
def matchReels : List Char → Option (List Char)
  | [] => none
  | c :: rest =>
    if litReel.isPrefixOf (c :: rest) then
      match (c :: rest).drop litReel.length with
      | 's' :: '/' :: d :: ds =>
        if shortcodeChar d then some (List.takeWhile shortcodeChar (d :: ds))
        else matchReels rest
      | '/' :: d :: ds =>
        if shortcodeChar d then some (List.takeWhile shortcodeChar (d :: ds))
        else matchReels rest
      | _ => matchReels rest
    else matchReels rest

/-- Leftmost match of `/instagram\.com\/stories\/[^/]+\/(\d+)/`: a
non-empty user segment without slashes, a slash, then the captured run
of digits. -/
def matchStories : List Char → Option (List Char)
  | [] => none
  | c :: rest =>
    if litStories.isPrefixOf (c :: rest) then
      let after := (c :: rest).drop litStories.length
      let user := after.takeWhile (fun ch => ch != '/')
      if user.isEmpty then matchStories rest
      else
        match after.drop user.length with
        | '/' :: d :: ds =>
          if d.isDigit then some (List.takeWhile Char.isDigit (d :: ds))
          else matchStories rest
        | _ => matchStories rest
    else matchStories rest

/-- Embedding of `extractInstagramShortcode`: the four patterns (post,
reel, reels?, story) are tried in order and the first match's capture
group is returned; `none` when no pattern matches. -/
def extractInstagramShortcode (url : String) : Option String :=
  match matchLitClass litPost shortcodeChar url.data with
  | some cap => some (String.mk cap)
  | none =>
    match matchLitClass litReelSlash shortcodeChar url.data with
    | some cap => some (String.mk cap)
    | none =>
      match matchReels url.data with
      | some cap => some (String.mk cap)
      | none =>
        match matchStories url.data with
        | some cap => some (String.mk cap)
        | none => none

/-- Embedding of `extractStarMakerRecordingId`: the digits captured by
`/recordingId=(\d+)/`, or `none`. -/
def extractStarMakerRecordingId (url : String) : Option String :=
  (matchLitClass litRecordingId Char.isDigit url.data).map String.mk

/-- Embedding of `isStarMakerUrl` (three domain variants). -/
def isStarMakerUrl (url : String) : Bool :=
  strContains url "starmakerstudios.com" || strContains url "starmaker.co" ||
    strContains url "m.starmaker"

/-- Embedding of `isInstagramUrl`. -/
def isInstagramUrl (url : String) : Bool :=
  strContains url "instagram.com"

/-- Decomposition of a URL into the pieces the WHATWG `URL` object
exposes and `cleanUrl` reads. -/
structure UrlParts where
  origin : String
  pathname : String
  search : String
  fragment : String
deriving DecidableEq

def httpsLit : List Char := "https://".data

def httpLit : List Char := "http://".data

/-- Splits the part of a URL after its scheme into host, path, query and
fragment, as the `URL` object exposes them. -/
def parseAfterScheme (scheme rest : List Char) : Option UrlParts :=
  let host := rest.takeWhile (fun c => c != '/' && c != '?' && c != '#')
  if host.isEmpty then none
  else
    let r1 := rest.drop host.length
    let path := r1.takeWhile (fun c => c != '?' && c != '#')
    let r2 := r1.drop path.length
    let query := r2.takeWhile (fun c => c != '#')
    some { origin := String.mk (scheme ++ host),
           pathname := if path.isEmpty then "/" else String.mk path,
           search := if query == ['?'] then "" else String.mk query,
           fragment := String.mk (r2.drop query.length) }

/-- Simplified model of the platform `new URL(...)` parser for the
`http`/`https` URLs this route handles: success requires one of those
two schemes and a non-empty host; the host is kept verbatim (no
case-folding or default-port normalisation — corners none of the claims
touch).  `none` models the constructor throwing. -/
def simpleParseUrl (s : String) : Option UrlParts :=
  if httpsLit.isPrefixOf s.data then
    parseAfterScheme httpsLit (s.data.drop httpsLit.length)
  else if httpLit.isPrefixOf s.data then
    parseAfterScheme httpLit (s.data.drop httpLit.length)
  else none

/-- Embedding of the route's `cleanUrl`: origin + pathname + search of
the parsed URL (the fragment is dropped), or the input unchanged when
parsing fails (the `catch` branch). -/
def cleanUrl (url : String) : String :=
  match simpleParseUrl url with
  | some u => u.origin ++ u.pathname ++ u.search
  | none => url

/-- The platform the route's branch order effectively assigns to a URL:
its `if` chain tests StarMaker first, then Instagram. -/
def classifyServer (url : String) : Option Platform :=
  if isStarMakerUrl (cleanUrl url) then some Platform.starmaker
  else if isInstagramUrl (cleanUrl url) then some Platform.instagram
  else none

/-- `replace(/\\u0026/g, '&')`: every literal backslash-u0026 escape
becomes an ampersand. -/
def replaceU0026 : List Char → List Char
  | '\\' :: 'u' :: '0' :: '0' :: '2' :: '6' :: rest => '&' :: replaceU0026 rest
  | c :: rest => c :: replaceU0026 rest
  | [] => []

/-- `replace(/\\/g, '')`: remove every remaining backslash. -/
def stripBackslashes (l : List Char) : List Char :=
  l.filter (fun c => c != '\\')

/-- The unescaping applied to captured Instagram media URLs. -/
def unescapeUrl (s : String) : String :=
  String.mk (stripBackslashes (replaceU0026 s.data))

/-- Captures extracted from the embed-page markup: those of
`"video_url":"..."` and `"display_url":"..."`, when present. -/
structure EmbedHtml where
  videoUrl : Option String
  displayUrl : Option String
deriving DecidableEq

/-- Upstream behaviour of the embed-page fetch: `Except.error` models
the fetch throwing, `Except.ok none` a non-2xx response, and
`Except.ok (some h)` a 2xx response whose body yields the captures `h`. -/
structure EmbedEnv where
  embed : Except Unit (Option EmbedHtml)

/-- Embedding of `downloadInstagram`: on a 2xx embed response a
`video_url` capture wins over a `display_url` capture, each captured URL
is unescaped, a thrown fetch is caught at the function's own boundary,
and every other outcome yields `none` (fail closed). -/
def downloadInstagram (env : EmbedEnv) (url shortcode : String) : Option MediaData :=
  match env.embed with
  | Except.ok (some h) =>
    match h.videoUrl with
    | some v =>
      some { type := "video", url := unescapeUrl v, platform := some "instagram" }
    | none =>
      match h.displayUrl with
      | some dd =>
        some { type := "image", url := unescapeUrl dd, platform := some "instagram" }
      | none => none
  | _ => none

/-- `og:title` / `og:image` captures extracted from the share page. -/
structure PageData where
  ogTitle : Option String
  ogImage : Option String
deriving DecidableEq

/-- Upstream behaviour for one StarMaker resolution: the primary CDN
HEAD check, the share-page fetch used for enrichment, and the secondary
CDN HEAD check.  `Except.error` models a thrown fetch; `Except.ok b` a
completed HEAD request with `response.ok = b`; for the page fetch,
`Except.ok none` is a non-2xx response and `Except.ok (some pd)` a 2xx
response with the meta-tag captures `pd`. -/
structure SMEnv where
  primaryHead : Except Unit Bool
  page : Except Unit (Option PageData)
  altHead : Except Unit Bool

/-- Network requests the StarMaker resolver can make. -/
inductive SMFetch
  | primaryHead
  | pageFetch
  | altHead
deriving DecidableEq

def primaryUrl (recordingId : String) : String :=
  "https://static.smintro.com/production/uploading/recordings/" ++ recordingId ++
    "/master.mp4"

def altUrl (recordingId : String) : String :=
  "https://static-v7.smintro.com/production/uploading/recordings/" ++ recordingId ++
    "/master.mp4"

def defaultTitle (recordingId : String) : String :=
  "StarMaker Recording " ++ recordingId

/-- Embedding of `downloadStarMaker`, returning the resolved media (if
any) together with the ordered trace of requests attempted.  A
successful primary HEAD check is followed by the enrichment page fetch
(title from `og:title`, thumbnail from `og:image`; any enrichment
failure keeps the defaults); a failed or throwing primary check falls
through to the secondary CDN, which on success returns immediately with
the default title and no thumbnail. -/
def downloadStarMaker (env : SMEnv) (url recordingId : String) :
    Option MediaData × List SMFetch :=
  match env.primaryHead with
  | Except.ok true =>
    let fields : String × Option String :=
      match env.page with
      | Except.ok (some pd) => (pd.ogTitle.getD (defaultTitle recordingId), pd.ogImage)
      | _ => (defaultTitle recordingId, none)
    (some { type := "video", url := primaryUrl recordingId, title := some fields.1,
            thumbnail := fields.2, platform := some "starmaker" },
     [SMFetch.primaryHead, SMFetch.pageFetch])
  | _ =>
    match env.altHead with
    | Except.ok true =>
      (some { type := "video", url := altUrl recordingId,
              title := some (defaultTitle recordingId), platform := some "starmaker" },
       [SMFetch.primaryHead, SMFetch.altHead])
    | _ => (none, [SMFetch.primaryHead, SMFetch.altHead])

/-- The JSON response of the download route: HTTP status plus the body
fields the claims inspect. -/
structure Response where
  status : Nat
  error : Option String := none
  fallback : Option Bool := none
  platform : Option String := none
  media : Option MediaData := none
deriving DecidableEq

/-- Requests the whole route can make. -/
inductive FetchEvent
  | igEmbed
  | smPrimary
  | smPage
  | smAlt
deriving DecidableEq

def smTrace : List SMFetch → List FetchEvent :=
  List.map (fun e => match e with
    | SMFetch.primaryHead => FetchEvent.smPrimary
    | SMFetch.pageFetch => FetchEvent.smPage
    | SMFetch.altHead => FetchEvent.smAlt)

/-- Upstream environment for one request to the download route. -/
structure DownloadEnv where
  insta : EmbedEnv
  sm : SMEnv

/-- Embedding of the route's `POST` handler body after JSON parsing: an
empty URL is rejected, the URL is cleaned, the StarMaker branch is
checked first, then Instagram, else the unsupported-URL response;
returns the response together with the ordered trace of upstream
requests attempted. -/
def postDownload (env : DownloadEnv) (url : String) : Response × List FetchEvent :=
  if url = "" then ({ status := 400, error := some "URL is required" }, [])
  else if isStarMakerUrl (cleanUrl url) then
    match extractStarMakerRecordingId (cleanUrl url) with
    | none =>
      ({ status := 400,
         error := some "Invalid StarMaker URL. Please use a valid recording share link." },
       [])
    | some recordingId =>
      match downloadStarMaker env.sm (cleanUrl url) recordingId with
      | (some result, tr) => ({ status := 200, media := some result }, smTrace tr)
      | (none, tr) =>
        ({ status := 503,
           error := some "Unable to fetch StarMaker recording. Please check if the link is valid." },
         smTrace tr)
  else if isInstagramUrl (cleanUrl url) then
    match extractInstagramShortcode (cleanUrl url) with
    | none =>
      ({ status := 400,
         error := some "Invalid Instagram URL. Please use a valid post, reel, or story URL." },
       [])
    | some shortcode =>
      match downloadInstagram env.insta (cleanUrl url) shortcode with
      | some result => ({ status := 200, media := some result }, [FetchEvent.igEmbed])
      | none =>
        ({ status := 503,
           error := some "Unable to fetch media. The post may be private or Instagram is blocking requests.",
           fallback := some true, platform := some "instagram" },
         [FetchEvent.igEmbed])
  else
    ({ status := 400, error := some "Unsupported URL. Please use Instagram or StarMaker links." },
     [])

end DownloadRoute

/-! ## The legacy Instagram route's strategy chain -/

namespace InstagramRoute

/-- Media data of the legacy Instagram-only route. -/
structure MediaData where
  type : String
  url : String
  thumbnail : Option String := none
  caption : Option String := none
  urls : Option (List String) := none
deriving DecidableEq

/-- The three remote strategies of the legacy route, in priority order
(the partner API runs only when a key is configured). -/
inductive Strategy
  | rapidapi
  | cobalt
  | savetik
deriving DecidableEq

/-- Outcome of one strategy as observed past its `try`/`catch` boundary:
`Except.error` models its fetch throwing, `Except.ok none` any completed
attempt that produced no media (non-2xx, unexpected shape, parse miss),
`Except.ok (some m)` a populated result; the boundary converts a thrown
error into "no result". -/
def runStrategy (r : Except Unit (Option MediaData)) : Option MediaData :=
  match r with
  | Except.ok m => m
  | Except.error _ => none

/-- Upstream environment: whether `RAPIDAPI_KEY` is configured, and the
outcome each strategy would produce if invoked. -/
structure ChainEnv where
  rapidKey : Bool
  rapid : Except Unit (Option MediaData)
  cobalt : Except Unit (Option MediaData)
  savetik : Except Unit (Option MediaData)

/-- The route's priority order of strategies. -/
def priorityOrder (env : ChainEnv) : List Strategy :=
  if env.rapidKey then [Strategy.rapidapi, Strategy.cobalt, Strategy.savetik]
  else [Strategy.cobalt, Strategy.savetik]

/-- Embedding of the strategy chain in the legacy route's `POST`
handler: each strategy runs inside its own `try`/`catch` and an early
`return` fires at the first populated result; the pair returned is the
resolved media (if any) and the ordered trace of strategies invoked. -/
def instaChain (env : ChainEnv) : Option MediaData × List Strategy :=
  if env.rapidKey then
    match runStrategy env.rapid with
    | some m => (some m, [Strategy.rapidapi])
    | none =>
      match runStrategy env.cobalt with
      | some m => (some m, [Strategy.rapidapi, Strategy.cobalt])
      | none =>
        match runStrategy env.savetik with
        | some m => (some m, [Strategy.rapidapi, Strategy.cobalt, Strategy.savetik])
        | none => (none, [Strategy.rapidapi, Strategy.cobalt, Strategy.savetik])
  else
    match runStrategy env.cobalt with
    | some m => (some m, [Strategy.cobalt])
    | none =>
      match runStrategy env.savetik with
      | some m => (some m, [Strategy.cobalt, Strategy.savetik])
      | none => (none, [Strategy.cobalt, Strategy.savetik])

end InstagramRoute

/-! ## Claims C5-C10 -/

/-- An upstream environment in which every fetch throws. -/
def anySMEnv : DownloadRoute.SMEnv :=
  { primaryHead := Except.error (), page := Except.error (), altHead := Except.error () }

/-- An embed environment in which the fetch throws. -/
def anyEmbedEnv : DownloadRoute.EmbedEnv :=
  { embed := Except.error () }

/-- A download environment in which every fetch throws. -/
def anyEnv : DownloadRoute.DownloadEnv :=
  { insta := anyEmbedEnv, sm := anySMEnv }

/-- A URL containing both the Instagram domain and a StarMaker domain
variant. -/
def bothDomainsUrl : String := "https://www.instagram.com/p/ABC?from=starmaker.co"

/-- Counterexample to claim C5 as stated: for a URL containing both the
Instagram domain and a StarMaker domain variant, the client's
`detectPlatform` indeed yields platform A, but the download route's
branch order tests StarMaker first, so the server handles the same URL
as platform B (and 400s it as an invalid StarMaker link). -/
theorem classification_counterexample :
    strContains bothDomainsUrl "instagram.com" = true
    ∧ strContains bothDomainsUrl "starmaker.co" = true
    ∧ DownloadForm.detectPlatform bothDomainsUrl = some Platform.instagram
    ∧ DownloadRoute.classifyServer bothDomainsUrl = some Platform.starmaker
    ∧ (DownloadRoute.postDownload anyEnv bothDomainsUrl).1.error =
        some "Invalid StarMaker URL. Please use a valid recording share link." := by
  exact ⟨by decide, by decide, by decide, by decide, by decide⟩

/-- Claim C5 (amended): the client's `detectPlatform` checks Instagram
first — a URL containing `instagram.com` is platform A even when it also
contains a StarMaker variant — then the two StarMaker domain variants,
and a URL matching no platform yields `none`; the download route's
branch order instead tests its StarMaker variants first and Instagram
second, so on the server a URL containing domains of both platforms
resolves to platform B, and one matching neither resolves to none
(unsupported). -/
theorem classification_rules (url : String) :
    (strContains url "instagram.com" = true →
      DownloadForm.detectPlatform url = some Platform.instagram)
    ∧ (strContains url "instagram.com" = false →
        (strContains url "starmakerstudios.com" || strContains url "starmaker.co") = true →
        DownloadForm.detectPlatform url = some Platform.starmaker)
    ∧ (strContains url "instagram.com" = false →
        strContains url "starmakerstudios.com" = false →
        strContains url "starmaker.co" = false →
        strContains url "youtube.com" = false →
        strContains url "youtu.be" = false →
        DownloadForm.detectPlatform url = none)
    ∧ (DownloadRoute.isStarMakerUrl (DownloadRoute.cleanUrl url) = true →
        DownloadRoute.classifyServer url = some Platform.starmaker)
    ∧ (DownloadRoute.isStarMakerUrl (DownloadRoute.cleanUrl url) = false →
        DownloadRoute.isInstagramUrl (DownloadRoute.cleanUrl url) = true →
        DownloadRoute.classifyServer url = some Platform.instagram)
    ∧ (DownloadRoute.isStarMakerUrl (DownloadRoute.cleanUrl url) = false →
        DownloadRoute.isInstagramUrl (DownloadRoute.cleanUrl url) = false →
        DownloadRoute.classifyServer url = none) := by
  refine ⟨?_, ?_, ?_, ?_, ?_, ?_⟩
  · intro h
    simp [DownloadForm.detectPlatform, h]
  · intro h1 h2
    simp [DownloadForm.detectPlatform, h1, h2]
  · intro h1 h2 h3 h4 h5
    simp [DownloadForm.detectPlatform, h1, h2, h3, h4, h5]
  · intro h
    simp [DownloadRoute.classifyServer, h]
  · intro h1 h2
    simp [DownloadRoute.classifyServer, h1, h2]
  · intro h1 h2
    simp [DownloadRoute.classifyServer, h1, h2]

/-- Witness for C5 (amended): a URL with no recognised domain maps to no
platform. -/
theorem classification_rules_witness :
    DownloadForm.detectPlatform "mailto:bob@example.com" = none :=
  (classification_rules "mailto:bob@example.com").2.2.1
    (by decide) (by decide) (by decide) (by decide) (by decide)

/-- Claim C6: in both the legacy Instagram route's strategy chain and
the StarMaker resolver, strategies run strictly in priority order, the
chain stops at the first populated result (later strategies are never
invoked), and each strategy fails closed — a thrown fetch behaves
exactly like an empty result and lets the chain continue. -/
theorem strategy_chain (env : InstagramRoute.ChainEnv)
    (sm : DownloadRoute.SMEnv) (ienv : DownloadRoute.EmbedEnv) (u sc rid : String) :
    (∀ m, env.rapidKey = true → InstagramRoute.runStrategy env.rapid = some m →
      InstagramRoute.instaChain env = (some m, [InstagramRoute.Strategy.rapidapi]))
    ∧ (∀ m, InstagramRoute.runStrategy env.rapid = none →
        InstagramRoute.runStrategy env.cobalt = some m →
        InstagramRoute.instaChain env =
          (some m, if env.rapidKey then
            [InstagramRoute.Strategy.rapidapi, InstagramRoute.Strategy.cobalt]
          else [InstagramRoute.Strategy.cobalt]))
    ∧ (∃ rest, (InstagramRoute.instaChain env).2 ++ rest =
        InstagramRoute.priorityOrder env)
    ∧ (InstagramRoute.instaChain
        { env with
            rapid := Except.ok (InstagramRoute.runStrategy env.rapid),
            cobalt := Except.ok (InstagramRoute.runStrategy env.cobalt),
            savetik := Except.ok (InstagramRoute.runStrategy env.savetik) } =
        InstagramRoute.instaChain env)
    ∧ (sm.primaryHead = Except.ok true →
        (DownloadRoute.downloadStarMaker sm u rid).2 =
          [DownloadRoute.SMFetch.primaryHead, DownloadRoute.SMFetch.pageFetch])
    ∧ (sm.primaryHead = Except.error () → sm.altHead = Except.ok true →
        DownloadRoute.downloadStarMaker sm u rid =
          (some { type := "video", url := DownloadRoute.altUrl rid,
                  title := some (DownloadRoute.defaultTitle rid),
                  platform := some "starmaker" },
           [DownloadRoute.SMFetch.primaryHead, DownloadRoute.SMFetch.altHead]))
    ∧ (ienv.embed = Except.error () →
        DownloadRoute.downloadInstagram ienv u sc = none) := by
  refine ⟨?_, ?_, ?_, ?_, ?_, ?_, ?_⟩
  · intro m hk hr
    simp [InstagramRoute.instaChain, hk, hr]
  · intro m h0 h1
    by_cases hk : env.rapidKey <;>
      simp [InstagramRoute.instaChain, hk, h0, h1]
  · by_cases hk : env.rapidKey
    · cases h1 : InstagramRoute.runStrategy env.rapid with
      | some m =>
        exact ⟨[InstagramRoute.Strategy.cobalt, InstagramRoute.Strategy.savetik],
          by simp [InstagramRoute.instaChain, InstagramRoute.priorityOrder, hk, h1]⟩
      | none =>
        cases h2 : InstagramRoute.runStrategy env.cobalt with
        | some m =>
          exact ⟨[InstagramRoute.Strategy.savetik],
            by simp [InstagramRoute.instaChain, InstagramRoute.priorityOrder, hk, h1, h2]⟩
        | none =>
          exact ⟨[], by
            cases h3 : InstagramRoute.runStrategy env.savetik <;>
              simp [InstagramRoute.instaChain, InstagramRoute.priorityOrder, hk, h1, h2, h3]⟩
    · cases h2 : InstagramRoute.runStrategy env.cobalt with
      | some m =>
        exact ⟨[InstagramRoute.Strategy.savetik],
          by simp [InstagramRoute.instaChain, InstagramRoute.priorityOrder, hk, h2]⟩
      | none =>
        exact ⟨[], by
          cases h3 : InstagramRoute.runStrategy env.savetik <;>
            simp [InstagramRoute.instaChain, InstagramRoute.priorityOrder, hk, h2, h3]⟩
  · rfl
  · intro h
    simp [DownloadRoute.downloadStarMaker, h]
  · intro h1 h2
    simp [DownloadRoute.downloadStarMaker, h1, h2]
  · intro h
    simp [DownloadRoute.downloadInstagram, h]

/-- A populated media result for the chain witness. -/
def sampleMedia : InstagramRoute.MediaData :=
  { type := "video", url := "https://cdn.example/x.mp4" }

/-- Witness for C6: with the partner key configured and strategy 1
succeeding, the chain returns its result and invokes no later
strategy. -/
theorem strategy_chain_witness :
    InstagramRoute.instaChain
      { rapidKey := true, rapid := Except.ok (some sampleMedia),
        cobalt := Except.error (), savetik := Except.error () } =
      (some sampleMedia, [InstagramRoute.Strategy.rapidapi]) :=
  (strategy_chain
    { rapidKey := true, rapid := Except.ok (some sampleMedia),
      cobalt := Except.error (), savetik := Except.error () }
    anySMEnv anyEmbedEnv "u" "sc" "rid").1 sampleMedia rfl rfl

/-- Claim C7: a URL routed to the Instagram branch whose path matches
none of the four identifier patterns yields `none` from the extractor
and an immediate 400 invalid-URL response with no strategy attempted;
when a pattern matches, the first matching pattern's capture group is
returned. -/
theorem invalid_instagram_url (env : DownloadRoute.DownloadEnv) (url : String) :
    (DownloadRoute.isStarMakerUrl (DownloadRoute.cleanUrl url) = false →
      DownloadRoute.isInstagramUrl (DownloadRoute.cleanUrl url) = true →
      DownloadRoute.extractInstagramShortcode (DownloadRoute.cleanUrl url) = none →
      DownloadRoute.postDownload env url =
        ({ status := 400,
           error := some "Invalid Instagram URL. Please use a valid post, reel, or story URL." },
         []))
    ∧ (∀ s cap,
        DownloadRoute.matchLitClass DownloadRoute.litPost DownloadRoute.shortcodeChar
          s.data = some cap →
        DownloadRoute.extractInstagramShortcode s = some (String.mk cap))
    ∧ (∀ s cap,
        DownloadRoute.matchLitClass DownloadRoute.litPost DownloadRoute.shortcodeChar
          s.data = none →
        DownloadRoute.matchLitClass DownloadRoute.litReelSlash DownloadRoute.shortcodeChar
          s.data = some cap →
        DownloadRoute.extractInstagramShortcode s = some (String.mk cap))
    ∧ (∀ s cap,
        DownloadRoute.matchLitClass DownloadRoute.litPost DownloadRoute.shortcodeChar
          s.data = none →
        DownloadRoute.matchLitClass DownloadRoute.litReelSlash DownloadRoute.shortcodeChar
          s.data = none →
        DownloadRoute.matchReels s.data = some cap →
        DownloadRoute.extractInstagramShortcode s = some (String.mk cap))
    ∧ (∀ s cap,
        DownloadRoute.matchLitClass DownloadRoute.litPost DownloadRoute.shortcodeChar
          s.data = none →
        DownloadRoute.matchLitClass DownloadRoute.litReelSlash DownloadRoute.shortcodeChar
          s.data = none →
        DownloadRoute.matchReels s.data = none →
        DownloadRoute.matchStories s.data = some cap →
        DownloadRoute.extractInstagramShortcode s = some (String.mk cap))
    ∧ (∀ s,
        DownloadRoute.matchLitClass DownloadRoute.litPost DownloadRoute.shortcodeChar
          s.data = none →
        DownloadRoute.matchLitClass DownloadRoute.litReelSlash DownloadRoute.shortcodeChar
          s.data = none →
        DownloadRoute.matchReels s.data = none →
        DownloadRoute.matchStories s.data = none →
        DownloadRoute.extractInstagramShortcode s = none) := by
  refine ⟨?_, ?_, ?_, ?_, ?_, ?_⟩
  · intro h1 h2 h3
    have hne : ¬ url = "" := by
      intro he
      rw [he] at h2
      have hfalse : DownloadRoute.isInstagramUrl (DownloadRoute.cleanUrl "") = false := by
        decide
      rw [hfalse] at h2
      exact Bool.false_ne_true h2
    simp [DownloadRoute.postDownload, hne, h1, h2, h3]
  · intro s cap h1
    simp [DownloadRoute.extractInstagramShortcode, h1]
  · intro s cap h1 h2
    simp [DownloadRoute.extractInstagramShortcode, h1, h2]
  · intro s cap h1 h2 h3
    simp [DownloadRoute.extractInstagramShortcode, h1, h2, h3]
  · intro s cap h1 h2 h3 h4
    simp [DownloadRoute.extractInstagramShortcode, h1, h2, h3, h4]
  · intro s h1 h2 h3 h4
    simp [DownloadRoute.extractInstagramShortcode, h1, h2, h3, h4]

/-- Witness for C7: an Instagram URL with an unsupported path shape is
rejected with the 400 invalid-URL response and an empty request trace. -/
theorem invalid_instagram_url_witness :
    DownloadRoute.postDownload anyEnv "https://www.instagram.com/explore/" =
      ({ status := 400,
         error := some "Invalid Instagram URL. Please use a valid post, reel, or story URL." },
       []) :=
  (invalid_instagram_url anyEnv "https://www.instagram.com/explore/").1
    (by decide) (by decide) (by decide)

/-- Environment for the C8 counterexample: primary CDN check fails,
share-page metadata would be available, secondary CDN check succeeds. -/
def smAltOnlyEnv : DownloadRoute.SMEnv :=
  { primaryHead := Except.ok false,
    page := Except.ok (some
      { ogTitle := some "My Song", ogImage := some "https://img.example/t.jpg" }),
    altHead := Except.ok true }

/-- Counterexample to claim C8 as stated: when the primary CDN check
fails and the secondary succeeds, the share page is never fetched even
though its og metadata is available, and the result keeps the default
title and no thumbnail. -/
theorem starmaker_enrichment_counterexample :
    (DownloadRoute.downloadStarMaker smAltOnlyEnv "u" "987654").1 =
      some { type := "video", url := DownloadRoute.altUrl "987654",
             title := some "StarMaker Recording 987654",
             platform := some "starmaker" }
    ∧ ((DownloadRoute.downloadStarMaker smAltOnlyEnv "u" "987654").1.bind
        (fun m => m.title)) ≠ some "My Song"
    ∧ ((DownloadRoute.downloadStarMaker smAltOnlyEnv "u" "987654").1.bind
        (fun m => m.thumbnail)) = none
    ∧ DownloadRoute.SMFetch.pageFetch ∉
        (DownloadRoute.downloadStarMaker smAltOnlyEnv "u" "987654").2 := by
  exact ⟨by decide, by decide, by decide, by decide⟩

/-- Claim C8 (amended): only a primary-CDN success is enriched from the
share page — og:title becomes the title and og:image the thumbnail, any
enrichment failure being non-fatal and keeping the defaults (title
`StarMaker Recording <id>`, no thumbnail); a secondary-CDN success
returns immediately with those defaults and without fetching the share
page; when both checks fail the resolver yields nothing. -/
theorem starmaker_enrichment (sm : DownloadRoute.SMEnv) (u rid : String) :
    (∀ pd, sm.primaryHead = Except.ok true → sm.page = Except.ok (some pd) →
      DownloadRoute.downloadStarMaker sm u rid =
        (some { type := "video", url := DownloadRoute.primaryUrl rid,
                title := some (pd.ogTitle.getD (DownloadRoute.defaultTitle rid)),
                thumbnail := pd.ogImage, platform := some "starmaker" },
         [DownloadRoute.SMFetch.primaryHead, DownloadRoute.SMFetch.pageFetch]))
    ∧ (sm.primaryHead = Except.ok true →
        (sm.page = Except.ok none ∨ sm.page = Except.error ()) →
        DownloadRoute.downloadStarMaker sm u rid =
          (some { type := "video", url := DownloadRoute.primaryUrl rid,
                  title := some (DownloadRoute.defaultTitle rid),
                  platform := some "starmaker" },
           [DownloadRoute.SMFetch.primaryHead, DownloadRoute.SMFetch.pageFetch]))
    ∧ ((sm.primaryHead = Except.ok false ∨ sm.primaryHead = Except.error ()) →
        sm.altHead = Except.ok true →
        DownloadRoute.downloadStarMaker sm u rid =
          (some { type := "video", url := DownloadRoute.altUrl rid,
                  title := some (DownloadRoute.defaultTitle rid),
                  platform := some "starmaker" },
           [DownloadRoute.SMFetch.primaryHead, DownloadRoute.SMFetch.altHead]))
    ∧ ((sm.primaryHead = Except.ok false ∨ sm.primaryHead = Except.error ()) →
        (sm.altHead = Except.ok false ∨ sm.altHead = Except.error ()) →
        DownloadRoute.downloadStarMaker sm u rid =
          (none, [DownloadRoute.SMFetch.primaryHead, DownloadRoute.SMFetch.altHead])) := by
  refine ⟨?_, ?_, ?_, ?_⟩
  · intro pd h1 h2
    simp [DownloadRoute.downloadStarMaker, h1, h2]
  · intro h1 h2
    rcases h2 with h2 | h2 <;> simp [DownloadRoute.downloadStarMaker, h1, h2]
  · intro h1 h2
    rcases h1 with h1 | h1 <;> simp [DownloadRoute.downloadStarMaker, h1, h2]
  · intro h1 h2
    rcases h1 with h1 | h1 <;> rcases h2 with h2 | h2 <;>
      simp [DownloadRoute.downloadStarMaker, h1, h2]

/-- Environment for the C8 witness: primary CDN succeeds and the share
page yields both og tags. -/
def smPrimaryEnv : DownloadRoute.SMEnv :=
  { primaryHead := Except.ok true,
    page := Except.ok (some
      { ogTitle := some "My Song", ogImage := some "https://img.example/t.jpg" }),
    altHead := Except.ok false }

/-- Witness for C8 (amended): a primary-CDN success is enriched with the
page's og:title and og:image. -/
theorem starmaker_enrichment_witness :
    DownloadRoute.downloadStarMaker smPrimaryEnv "u" "42" =
      (some { type := "video", url := DownloadRoute.primaryUrl "42",
              title := some "My Song",
              thumbnail := some "https://img.example/t.jpg",
              platform := some "starmaker" },
       [DownloadRoute.SMFetch.primaryHead, DownloadRoute.SMFetch.pageFetch]) :=
  (starmaker_enrichment smPrimaryEnv "u" "42").1
    { ogTitle := some "My Song", ogImage := some "https://img.example/t.jpg" } rfl rfl

/-- Claim C9: when every Instagram strategy fails the route responds 503
with the machine-readable flag `fallback: true` and the platform tag
`instagram`; a StarMaker failure responds 503 with no fallback flag. -/
theorem upstream_blocked (env : DownloadRoute.DownloadEnv) (url : String) :
    (∀ sc, DownloadRoute.isStarMakerUrl (DownloadRoute.cleanUrl url) = false →
      DownloadRoute.isInstagramUrl (DownloadRoute.cleanUrl url) = true →
      DownloadRoute.extractInstagramShortcode (DownloadRoute.cleanUrl url) = some sc →
      DownloadRoute.downloadInstagram env.insta (DownloadRoute.cleanUrl url) sc = none →
      (DownloadRoute.postDownload env url).1 =
        { status := 503,
          error := some "Unable to fetch media. The post may be private or Instagram is blocking requests.",
          fallback := some true, platform := some "instagram" })
    ∧ (∀ rid, DownloadRoute.isStarMakerUrl (DownloadRoute.cleanUrl url) = true →
        DownloadRoute.extractStarMakerRecordingId (DownloadRoute.cleanUrl url) = some rid →
        (DownloadRoute.downloadStarMaker env.sm (DownloadRoute.cleanUrl url) rid).1 = none →
        (DownloadRoute.postDownload env url).1 =
          { status := 503,
            error := some "Unable to fetch StarMaker recording. Please check if the link is valid." }) := by
  constructor
  · intro sc h1 h2 h3 h4
    have hne : ¬ url = "" := by
      intro he
      rw [he] at h2
      have hfalse : DownloadRoute.isInstagramUrl (DownloadRoute.cleanUrl "") = false := by
        decide
      rw [hfalse] at h2
      exact Bool.false_ne_true h2
    simp [DownloadRoute.postDownload, hne, h1, h2, h3, h4]
  · intro rid h1 h2 h3
    have hne : ¬ url = "" := by
      intro he
      rw [he] at h1
      have hfalse : DownloadRoute.isStarMakerUrl (DownloadRoute.cleanUrl "") = false := by
        decide
      rw [hfalse] at h1
      exact Bool.false_ne_true h1
    rcases hds : DownloadRoute.downloadStarMaker env.sm (DownloadRoute.cleanUrl url) rid
      with ⟨res, tr⟩
    rw [hds] at h3
    simp only at h3
    subst h3
    simp [DownloadRoute.postDownload, hne, h1, h2, hds]

/-- Witness for C9: an Instagram post URL whose single embed strategy
throws produces the 503 response with fallback flag true. -/
theorem upstream_blocked_witness :
    (DownloadRoute.postDownload anyEnv "https://www.instagram.com/p/ABC123/").1 =
      { status := 503,
        error := some "Unable to fetch media. The post may be private or Instagram is blocking requests.",
        fallback := some true, platform := some "instagram" } :=
  (upstream_blocked anyEnv "https://www.instagram.com/p/ABC123/").1 "ABC123"
    (by decide) (by decide) (by decide) (by decide)

/-- Claim C10: `cleanUrl` is total — in this embedding the `catch`
branch returns the input unchanged whenever the URL fails to parse —
and on a parsed URL it returns origin + pathname + search, dropping the
fragment, so a `recordingId` query parameter survives cleaning. -/
theorem cleanUrl_total (url : String) :
    (DownloadRoute.simpleParseUrl url = none → DownloadRoute.cleanUrl url = url)
    ∧ (∀ u, DownloadRoute.simpleParseUrl url = some u →
        DownloadRoute.cleanUrl url = u.origin ++ u.pathname ++ u.search)
    ∧ DownloadRoute.cleanUrl "https://m.starmaker.co/share?recordingId=987654#frag" =
        "https://m.starmaker.co/share?recordingId=987654"
    ∧ DownloadRoute.cleanUrl "not a url" = "not a url"
    ∧ DownloadRoute.extractStarMakerRecordingId
        (DownloadRoute.cleanUrl "https://m.starmaker.co/share?recordingId=987654#frag") =
        some "987654" := by
  refine ⟨?_, ?_, by decide, by decide, by decide⟩
  · intro h
    simp [DownloadRoute.cleanUrl, h]
  · intro u h
    simp [DownloadRoute.cleanUrl, h]

/-- Witness for C10: a non-URL input is returned unchanged. -/
theorem cleanUrl_total_witness :
    DownloadRoute.cleanUrl "just words" = "just words" :=
  (cleanUrl_total "just words").1 (by decide)

end InstantDl
